import Mathlib

/-!
# Verification of the dynamic data-flow dependency analyzer

This development shallowly embeds the core of the repository's dynamic
data-flow analyzer (the Python program embedded in
`src/src/utils/dataFlow.ts`): the static per-line classifier
(`LineVarCollector`), the scope stores, the dependency propagator
(`Analyzer._set_deps_for_assignment`), the per-line execution hook
(`Analyzer.tracer`) and the run wrapper (`Analyzer.run`).

Python `dict`s are modelled as association lists (`Dict`), Python `set`s of
variable names as `Finset String`, and `sorted(...)` on such a set as
`sortedNames`, an insertion sort under the lexicographic order on the
strings' character codes (the order Python's `sorted` uses for ASCII
names).  Line events delivered by the host interpreter's `sys.settrace`
machinery are modelled as an explicit list of `TraceEvent`s carrying the
frame data the tracer consults (`f_lineno`, membership in `f_locals` /
`f_globals` / `f_builtins`, whether `f_locals is f_globals`, and whether
the frame belongs to the analyzed source file).
-/

namespace DataFlow

/-- Lexicographic comparison of two lists of naturals; used to model the
order in which Python's `sorted` enumerates a set of variable names. -/
def natListLe : List Nat → List Nat → Bool
  | [], _ => true
  | _ :: _, [] => false
  | a :: as, b :: bs =>
    if a < b then true
    else if b < a then false
    else natListLe as bs

/-- The character codes of a string, the key Python's `sorted` orders
variable names by. -/
def charCodes (s : String) : List Nat := s.data.map Char.toNat

/-- Lexicographic order on strings by character codes. -/
def strle (a b : String) : Prop := natListLe (charCodes a) (charCodes b) = true

instance : DecidableRel strle := fun a b => by unfold strle; infer_instance

instance : IsTotal String strle := by
  constructor
  intro a b
  unfold strle
  generalize charCodes a = x
  generalize charCodes b = y
  induction x generalizing y with
  | nil => left; rfl
  | cons h1 t1 ih =>
    cases y with
    | nil => right; rfl
    | cons h2 t2 =>
      simp only [natListLe]
      by_cases h12 : h1 < h2
      · left; rw [if_pos h12]
      · by_cases h21 : h2 < h1
        · right; rw [if_pos h21]
        · have he : h1 = h2 := Nat.le_antisymm (Nat.le_of_not_lt h21) (Nat.le_of_not_lt h12)
          subst he
          simp only [if_neg (Nat.lt_irrefl h1)]
          exact ih t2

instance : IsTrans String strle := by
  constructor
  intro a b c
  unfold strle
  generalize charCodes a = x
  generalize charCodes b = y
  generalize charCodes c = z
  induction x generalizing y z with
  | nil => intro _ _; rfl
  | cons h1 t1 ih =>
    cases y with
    | nil => intro hxy; cases hxy
    | cons h2 t2 =>
      cases z with
      | nil => intro _ hyz; cases hyz
      | cons h3 t3 =>
        intro hxy hyz
        simp only [natListLe] at hxy hyz ⊢
        by_cases h12 : h1 < h2
        · by_cases h23 : h2 < h3
          · rw [if_pos (Nat.lt_trans h12 h23)]
          · by_cases h32 : h3 < h2
            · rw [if_neg h23, if_pos h32] at hyz; cases hyz
            · have he : h2 = h3 :=
                Nat.le_antisymm (Nat.le_of_not_lt h32) (Nat.le_of_not_lt h23)
              subst he
              rw [if_pos h12]
        · by_cases h21 : h2 < h1
          · rw [if_neg h12, if_pos h21] at hxy; cases hxy
          · have he : h1 = h2 :=
              Nat.le_antisymm (Nat.le_of_not_lt h21) (Nat.le_of_not_lt h12)
            subst he
            simp only [if_neg (Nat.lt_irrefl h1)] at hxy
            by_cases h13 : h1 < h3
            · rw [if_pos h13]
            · by_cases h31 : h3 < h1
              · rw [if_neg h13, if_pos h31] at hyz; cases hyz
              · simp only [if_neg h13, if_neg h31] at hyz ⊢
                exact ih t2 t3 hxy hyz

instance : IsAntisymm String strle := by
  constructor
  intro a b hab hba
  have hcodes : charCodes a = charCodes b := by
    revert hab hba
    unfold strle
    generalize charCodes a = x
    generalize charCodes b = y
    induction x generalizing y with
    | nil =>
      intro _ hba
      cases y with
      | nil => rfl
      | cons h2 t2 => cases hba
    | cons h1 t1 ih =>
      intro hab hba
      cases y with
      | nil => cases hab
      | cons h2 t2 =>
        simp only [natListLe] at hab hba
        by_cases h12 : h1 < h2
        · rw [if_neg (Nat.lt_asymm h12), if_pos h12] at hba; cases hba
        · by_cases h21 : h2 < h1
          · rw [if_neg h12, if_pos h21] at hab; cases hab
          · have he : h1 = h2 :=
              Nat.le_antisymm (Nat.le_of_not_lt h21) (Nat.le_of_not_lt h12)
            subst he
            simp only [if_neg (Nat.lt_irrefl h1)] at hab hba
            exact congrArg (h1 :: ·) (ih t2 hab hba)
  have hdata : a.data = b.data := by
    apply List.map_injective_iff.mpr ?_ hcodes
    intro c d h
    apply Char.eq_of_val_eq
    apply UInt32.eq_of_toBitVec_eq
    exact BitVec.toNat_eq.mpr h
  cases a; cases b; exact congrArg String.mk hdata

/-- Model of `sorted(s)` for a Python set `s` of names: the elements of the finset in
increasing `strle` order.  Defined by lifting insertion sort through the
multiset quotient; well defined because a sort of a permutation is equal. -/
def sortedNames (s : Finset String) : List String :=
  Quot.lift (fun l => List.insertionSort strle l)
    (fun l l' h =>
      List.eq_of_perm_of_sorted
        (List.Perm.trans (List.perm_insertionSort strle l)
          (List.Perm.trans h
            (List.Perm.symm (List.perm_insertionSort strle l'))))
        (List.sorted_insertionSort strle l)
        (List.sorted_insertionSort strle l'))
    s.val

/-- Association-list model of a Python `dict`. -/
structure Dict (κ ν : Type) where
  entries : List (κ × ν)
deriving DecidableEq

/-- Lookup in the underlying entry list (`d.get(k)` / `k in d`). -/
def findEntry {κ ν : Type} [DecidableEq κ] : List (κ × ν) → κ → Option ν
  | [], _ => none
  | (k', v) :: rest, k => if k' = k then some v else findEntry rest k

/-- Entry replacement/addition in the underlying list (`d[k] = v`). -/
def insertEntry {κ ν : Type} [DecidableEq κ] : List (κ × ν) → κ → ν → List (κ × ν)
  | [], k, v => [(k, v)]
  | (k', v') :: rest, k, v =>
    if k' = k then (k, v) :: rest else (k', v') :: insertEntry rest k v

/-- Lookup `d.get(k)` returning `none` for a missing key. -/
def Dict.find? {κ ν : Type} [DecidableEq κ] (d : Dict κ ν) (k : κ) : Option ν :=
  findEntry d.entries k

/-- Assignment `d[k] = v`. -/
def Dict.insert {κ ν : Type} [DecidableEq κ] (d : Dict κ ν) (k : κ) (v : ν) : Dict κ ν :=
  ⟨insertEntry d.entries k v⟩

/-- Lookup `d.get(k, dflt)`. -/
def Dict.getD {κ ν : Type} [DecidableEq κ] (d : Dict κ ν) (k : κ) (dflt : ν) : ν :=
  (d.find? k).getD dflt

/-- The empty dict. -/
def Dict.empty {κ ν : Type} : Dict κ ν := ⟨[]⟩

/-- One output record: on the `execution`-th visit of `line`, the value of
`varName` depended on `dependency`.  The Python code stores the record as
the string `f"{line},{ecount},{v},{d}"` and the TypeScript wrapper splits it
back into these four fields; the structured form is used directly here. -/
structure DependencyRecord where
  line : Nat
  execution : Nat
  varName : String
  dependency : String
deriving DecidableEq

/-- The frame data the tracer reads from a Python frame object:
`id(frame)`, `frame.f_lineno`, the names bound in `frame.f_locals` and
`frame.f_globals`, the names of `frame.f_builtins`, whether
`frame.f_locals is frame.f_globals` (module-level execution), and whether
`frame.f_code.co_filename` equals the analyzed source path. -/
structure Frame where
  fid : Nat
  fLineno : Nat
  localNames : Finset String
  globalNames : Finset String
  builtinNames : Finset String
  localsIsGlobals : Bool
  inSourceFile : Bool
deriving DecidableEq

/-- One invocation of the trace callback: the frame and the event kind
string (`"line"`, `"call"`, `"return"`, ...). -/
structure TraceEvent where
  frame : Frame
  event : String

/-- The per-line classification produced by `LineVarCollector`:
`used_by_line`, `assigned_by_line` and `rhs_by_line`, each a
`defaultdict(set)` modelled as a total function defaulting to `∅`.
(`all_vars_by_line` is also built by the collector but never read by the
tracer, so it is not carried here.) -/
structure LineSets where
  used : Nat → Finset String
  assigned : Nat → Finset String
  rhs : Nat → Finset String

/-- The analyzer's mutable state: `self.records`, `self.line_exec_count`
(a `defaultdict(int)`), `self.frame_deps` (a
`defaultdict(lambda: defaultdict(set))` keyed by `id(frame)`), and
`self.global_deps` (a `defaultdict(set)`). -/
structure AnalyzerState where
  records : List DependencyRecord
  lineExecCount : Nat → Nat
  frameDeps : Dict Nat (Dict String (Finset String))
  globalDeps : Dict String (Finset String)

/-- The freshly constructed state `Analyzer.__init__` produces: empty
record list, all-zero counters, empty stores. -/
def initState : AnalyzerState :=
  { records := []
    lineExecCount := fun _ => 0
    frameDeps := Dict.empty
    globalDeps := Dict.empty }

/-- Embeds `Analyzer._is_builtin`: the name is a key of `frame.f_builtins`.
(The Python code also tolerates `f_builtins` being a module rather than a
dict and swallows introspection errors; with the dict modelled as a name
set, membership is the whole check.) -/
def isBuiltin (name : String) (fr : Frame) : Bool :=
  decide (name ∈ fr.builtinNames)

/-- Embeds `Analyzer._get_current_deps_for`: if the name is bound in
`frame.f_locals`, read the global store at module level and the frame's
local store otherwise; else if bound in `frame.f_globals`, read the global
store; else the empty set.  (Missing store entries default to `∅`, as with
`dict.get(var, set())`.) -/
def getCurrentDepsFor (st : AnalyzerState) (fr : Frame) (var : String) : Finset String :=
  if var ∈ fr.localNames then
    if fr.localsIsGlobals then (st.globalDeps.find? var).getD ∅
    else (((st.frameDeps.find? fr.fid).getD Dict.empty).find? var).getD ∅
  else if var ∈ fr.globalNames then (st.globalDeps.find? var).getD ∅
  else ∅

/-- Embeds `Analyzer._set_deps_for_assignment`: drop builtin names from the RHS
list, fold their current dependency sets together adding each RHS name
itself, and write the resulting union to every target — into
`self.global_deps` at module level, into `self.frame_deps[id(frame)]`
otherwise. -/
def setDepsForAssignment (st : AnalyzerState) (fr : Frame)
    (targets rhsNames : List String) : AnalyzerState :=
  let cleanedRhs := rhsNames.filter (fun n => ! isBuiltin n fr)
  let unionDeps := cleanedRhs.foldl
    (fun acc src => (acc ∪ getCurrentDepsFor st fr src) ∪ {src}) ∅
  if fr.localsIsGlobals then
    { st with globalDeps :=
        targets.foldl (fun g tgt => g.insert tgt unionDeps) st.globalDeps }
  else
    let inner := (st.frameDeps.find? fr.fid).getD Dict.empty
    { st with frameDeps :=
        (st.frameDeps.insert fr.fid
          (targets.foldl (fun g tgt => g.insert tgt unionDeps) inner)) }

/-- The record batch one `"line"` event appends: for each emit variable
(`used ∪ (assigned ∩ rhs)`) in sorted order, one record per dependency in
its pre-assignment snapshot, in sorted order.  The snapshot argument `st`
is the state *before* `_set_deps_for_assignment` ran, exactly as
`pre_deps` is computed in `Analyzer.tracer` step 2. -/
def emitBatch (cls : LineSets) (st : AnalyzerState) (fr : Frame) (ecount : Nat) :
    List DependencyRecord :=
  (sortedNames (cls.used fr.fLineno ∪ (cls.assigned fr.fLineno ∩ cls.rhs fr.fLineno))).flatMap
    (fun v => (sortedNames (getCurrentDepsFor st fr v)).map
      (fun d => { line := fr.fLineno, execution := ecount, varName := v, dependency := d }))

/-- A stage of the tracer body at which an internal exception may be
raised; the body is total in this embedding, so possible introspection
failures are modelled by an explicit fault injected at the entry of one of
the stages of `Analyzer.tracer` (all of which precede the record emission
and the counter increment). -/
inductive HookStage where
  | classify
  | snapshot
  | propagate
deriving DecidableEq

/-- The body of `Analyzer.tracer` inside its `try:`.  Frames from other
files are skipped; only `"line"` events are processed.  For a line event:
read the line's classification, snapshot pre-line dependency sets, apply
the assignment if any, increment the line's execution counter, and append
the emitted records.  An injected fault raises at the given stage
(`Except.error`).  The set-typed `assigned` and `rhs` are passed to the
propagator in canonical sorted order; the Python code iterates them in
unspecified set order, and the propagator's result is order-independent. -/
def tracerStep (cls : LineSets) (fault : Option HookStage) (st : AnalyzerState)
    (fr : Frame) (event : String) : Except Unit AnalyzerState :=
  if fr.inSourceFile = false then Except.ok st
  else if event = "line" then
    if fault = some HookStage.classify then Except.error ()
    else
      let line := fr.fLineno
      let assigned := cls.assigned line
      let rhs := cls.rhs line
      if fault = some HookStage.snapshot then Except.error ()
      else if fault = some HookStage.propagate then Except.error ()
      else
        let st1 := if assigned = ∅ then st
          else setDepsForAssignment st fr (sortedNames assigned) (sortedNames rhs)
        let st2 := { st1 with lineExecCount :=
          fun l => if l = line then st1.lineExecCount l + 1 else st1.lineExecCount l }
        let ecount := st2.lineExecCount line
        Except.ok { st2 with records := st2.records ++ emitBatch cls st fr ecount }
  else Except.ok st

/-- Embeds `Analyzer.tracer` with its `try ... except Exception: return self.tracer`:
a raised exception is caught, the event's mutations are lost (the modelled
fault points precede every mutation), and the hook still returns the tracer
so tracing continues — the second component is `true` when the hook
returned its own tracer function. -/
def tracerHook (cls : LineSets) (fault : Option HookStage) (st : AnalyzerState)
    (fr : Frame) (event : String) : AnalyzerState × Bool :=
  match tracerStep cls fault st fr event with
  | Except.ok st' => (st', true)
  | Except.error _ => (st, true)

/-- The fault-free tracer: the state transformer one trace event applies. -/
def tracer (cls : LineSets) (st : AnalyzerState) (fr : Frame) (event : String) :
    AnalyzerState :=
  (tracerHook cls none st fr event).1

/-- Folding the tracer over the host interpreter's trace events, in the
order the analyzed program executes its lines. -/
def runTrace (cls : LineSets) (st : AnalyzerState) (evs : List TraceEvent) :
    AnalyzerState :=
  evs.foldl (fun s e => tracer cls s e.frame e.event) st

/-- What `Analyzer.run` delivers: the value returned to the caller, the
exception the caller observes (if any), and whether the previously
installed trace function was restored. -/
structure RunOutcome where
  returned : List DependencyRecord
  raised : Option String
  traceRestored : Bool
deriving DecidableEq

/-- Embeds `Analyzer.run`: installs the tracer, runs the target program via
`runpy.run_path`, and in the `finally` block restores the previous trace
function and executes `return self.records`.  The target execution is
modelled by its outcome: `Except.ok evs` for normal completion with trace
events `evs`, `Except.error (msg, evs)` for a target exception raised
after the prefix `evs` of events.  A `return` inside `finally` discards
any in-flight exception (host language semantics), so the caller always
receives the accumulated records and never the exception. -/
def Analyzer.run (cls : LineSets) (st : AnalyzerState)
    (target : Except (String × List TraceEvent) (List TraceEvent)) : RunOutcome :=
  let evs := match target with
    | Except.ok evs => evs
    | Except.error (_, evs) => evs
  let final := runTrace cls st evs
  { returned := final.records, raised := none, traceRestored := true }

/-! ## The static line classifier (`LineVarCollector`) -/

/-- Expression contexts, as in Python's `ast.Load` / `ast.Store`. -/
inductive Ctx where
  | load
  | store
deriving DecidableEq

/-- The expression fragment the classifier distinguishes: `ast.Name` nodes
(each with its own `lineno`, identifier and context), leaf expressions
containing no `Name` node (numeric literals, or literal containers of
such, e.g. `1` or `[1, 2]`), and binary operations (`b + a`). -/
inductive Expr where
  | name (lineno : Nat) (id : String) (ctx : Ctx)
  | const (lineno : Nat)
  | binop (lineno : Nat) (left right : Expr)

/-- All `ast.Name` nodes found by `ast.walk` of an expression, as
(lineno, identifier, context) triples. -/
def Expr.nameNodes : Expr → List (Nat × String × Ctx)
  | .name l i c => [(l, i, c)]
  | .const _ => []
  | .binop _ a b => a.nameNodes ++ b.nameNodes

/-- Embeds `LineVarCollector._names_in(node, (ctx,))`: the identifiers of the
`Name` nodes of the expression whose context equals `c`
(`_targets_names` is `namesIn · Ctx.store`, `_value_names` is
`namesIn · Ctx.load`). -/
def namesIn (e : Expr) (c : Ctx) : Finset String :=
  ((e.nameNodes.filter (fun t => decide (t.2.2 = c))).map (fun t => t.2.1)).toFinset

/-- The statement forms the classifier treats specially, mirroring
`ast.Assign`, `ast.AnnAssign`, `ast.AugAssign`, `ast.For` and `ast.With`
(each with the statement's `lineno`), plus a bare expression statement.
`For` and `With` carry their body statements; a `With` item is a
(context expression, optional binder) pair. -/
inductive Stmt where
  | assign (lineno : Nat) (targets : List Expr) (value : Expr)
  | annAssign (lineno : Nat) (target : Expr) (value : Option Expr)
  | augAssign (lineno : Nat) (target : Expr) (value : Expr)
  | forStmt (lineno : Nat) (target : Expr) (iter : Expr) (body : List Stmt)
  | withStmt (lineno : Nat) (items : List (Expr × Option Expr)) (body : List Stmt)
  | exprStmt (lineno : Nat) (value : Expr)

/-- Pointwise accumulation into one of the per-line `defaultdict(set)`
tables: `table[line] |= s`. -/
def addAt (f : Nat → Finset String) (line : Nat) (s : Finset String) :
    Nat → Finset String :=
  fun l => if l = line then f l ∪ s else f l

/-- Embeds `LineVarCollector.visit_Name`, applied (via `generic_visit`) to every
`Name` node of a statement's expressions: a Load-context name joins
`used_by_line` and a Store-context name joins `assigned_by_line`, each at
the *name node's own* line number. -/
def visitNameNodes (acc : LineSets) (nodes : List (Nat × String × Ctx)) : LineSets :=
  nodes.foldl
    (fun a t =>
      match t.2.2 with
      | Ctx.load => { a with used := addAt a.used t.1 {t.2.1} }
      | Ctx.store => { a with assigned := addAt a.assigned t.1 {t.2.1} })
    acc

/-- The `Name` nodes of a `With` statement's items. -/
def withItemNameNodes (items : List (Expr × Option Expr)) : List (Nat × String × Ctx) :=
  items.foldr
    (fun it l =>
      it.1.nameNodes ++
        (match it.2 with | some ov => ov.nameNodes | none => []) ++ l)
    []

mutual

/-- The visitor's work for one statement: the construct-specific handler
(`visit_Assign` / `visit_AnnAssign` / `visit_AugAssign` / `visit_For` /
`visit_With`) followed by `generic_visit`, which dispatches `visit_Name`
on every `Name` node of the statement's own expressions and recurses into
body statements. -/
def visitStmt (acc : LineSets) : Stmt → LineSets
  | .assign line targets value =>
      let assignedNames := targets.foldl (fun s t => s ∪ namesIn t Ctx.store) ∅
      let acc1 :=
        if assignedNames = ∅ then acc
        else { acc with assigned := addAt acc.assigned line assignedNames }
      let acc2 := { acc1 with rhs := addAt acc1.rhs line (namesIn value Ctx.load) }
      visitNameNodes acc2
        ((targets.foldr (fun e l => e.nameNodes ++ l) []) ++ value.nameNodes)
  | .annAssign line target value =>
      let acc1 :=
        match value with
        | some v =>
            let a1 := { acc with assigned := addAt acc.assigned line (namesIn target Ctx.store) }
            { a1 with rhs := addAt a1.rhs line (namesIn v Ctx.load) }
        | none => acc
      visitNameNodes acc1
        (target.nameNodes ++ (match value with | some v => v.nameNodes | none => []))
  | .augAssign line target value =>
      let acc1 := { acc with assigned := addAt acc.assigned line (namesIn target Ctx.store) }
      let acc2 := { acc1 with rhs := addAt acc1.rhs line (namesIn value Ctx.load) }
      let acc3 := { acc2 with rhs :=
        (addAt acc2.rhs line (target.nameNodes.map (fun t => t.2.1)).toFinset) }
      visitNameNodes acc3 (target.nameNodes ++ value.nameNodes)
  | .forStmt line target iter body =>
      let acc1 := { acc with assigned := addAt acc.assigned line (namesIn target Ctx.store) }
      let acc2 := { acc1 with rhs := addAt acc1.rhs line (namesIn iter Ctx.load) }
      let acc3 := visitNameNodes acc2 (target.nameNodes ++ iter.nameNodes)
      visitStmts acc3 body
  | .withStmt line items body =>
      let acc1 := items.foldl
        (fun a it =>
          let a1 :=
            match it.2 with
            | some ov => { a with assigned := addAt a.assigned line (namesIn ov Ctx.store) }
            | none => a
          { a1 with rhs := addAt a1.rhs line (namesIn it.1 Ctx.load) })
        acc
      let acc2 := visitNameNodes acc1 (withItemNameNodes items)
      visitStmts acc2 body
  | .exprStmt _ value =>
      visitNameNodes acc value.nameNodes

/-- Visiting a list of statements in order. -/
def visitStmts (acc : LineSets) : List Stmt → LineSets
  | [] => acc
  | s :: rest => visitStmts (visitStmt acc s) rest

end

/-- Running `LineVarCollector` over a parsed module: all tables start as
empty `defaultdict(set)`s.  (`finalize` additionally builds
`all_vars_by_line = used ∪ assigned`, which the tracer never reads.) -/
def collect (prog : List Stmt) : LineSets :=
  visitStmts { used := fun _ => ∅, assigned := fun _ => ∅, rhs := fun _ => ∅ } prog

/-! ## Concrete scenarios

The trace-event lists below follow the host interpreter's line-event
semantics described in the spec (one `"line"` event per executed source
line, in execution order, the `for` header receiving one event per
iteration check): the hook runs *before* the line executes, so a frame's
bound names are those assigned by previously executed lines. -/

/-- A representative set of names bound in `frame.f_builtins` by the host
interpreter (only membership of the names appearing in the analyzed
programs matters). -/
def pyBuiltins : Finset String := {"print", "len", "range", "abs", "sum"}

/-- The module-level frame: `f_locals is f_globals`, in the analyzed file,
with the given set of already-bound names. -/
def moduleFrame (lineno : Nat) (bound : Finset String) : Frame :=
  { fid := 1
    fLineno := lineno
    localNames := bound
    globalNames := bound
    builtinNames := pyBuiltins
    localsIsGlobals := true
    inSourceFile := true }

/-- A module-level `"line"` trace event. -/
def lineEvent (lineno : Nat) (bound : Finset String) : TraceEvent :=
  { frame := moduleFrame lineno bound, event := "line" }

/-- Scenario A source: `a = 1` / `b = a` / `c = b + a`. -/
def scenarioAProg : List Stmt :=
  [ Stmt.assign 1 [Expr.name 1 "a" Ctx.store] (Expr.const 1),
    Stmt.assign 2 [Expr.name 2 "b" Ctx.store] (Expr.name 2 "a" Ctx.load),
    Stmt.assign 3 [Expr.name 3 "c" Ctx.store]
      (Expr.binop 3 (Expr.name 3 "b" Ctx.load) (Expr.name 3 "a" Ctx.load)) ]

/-- Scenario A line events: lines 1, 2, 3, each once. -/
def scenarioAEvents : List TraceEvent :=
  [ lineEvent 1 ∅, lineEvent 2 {"a"}, lineEvent 3 {"a", "b"} ]

/-- Scenario B source: `a = [1, 2]` / `for x in a:` / `    y = x`. -/
def scenarioBProg : List Stmt :=
  [ Stmt.assign 1 [Expr.name 1 "a" Ctx.store] (Expr.const 1),
    Stmt.forStmt 2 (Expr.name 2 "x" Ctx.store) (Expr.name 2 "a" Ctx.load)
      [ Stmt.assign 3 [Expr.name 3 "y" Ctx.store] (Expr.name 3 "x" Ctx.load) ] ]

/-- Scenario B line events: line 1 once, then the loop header and body
alternating (the header also gets the terminating iteration check). -/
def scenarioBEvents : List TraceEvent :=
  [ lineEvent 1 ∅, lineEvent 2 {"a"}, lineEvent 3 {"a", "x"},
    lineEvent 2 {"a", "x"}, lineEvent 3 {"a", "x", "y"},
    lineEvent 2 {"a", "x", "y"} ]

/-! ## Views and concrete inputs used by the claim statements -/

/-- The store cell `_set_deps_for_assignment` writes for a name: the
global-store entry at module level, the frame-local-store entry otherwise
(`none` when no entry exists for the name). -/
def storedEntry (st : AnalyzerState) (fr : Frame) (var : String) :
    Option (Finset String) :=
  if fr.localsIsGlobals then st.globalDeps.find? var
  else ((st.frameDeps.find? fr.fid).getD Dict.empty).find? var

/-- Modelled from the spec: the Scope Store read rule exactly as claim C5
words it — a module-level read returns the global store's entry; otherwise
a read first checks the invocation's local *dependency store*, then falls
back to the global *dependency store*, and otherwise returns the empty
set. -/
def claimedGet (st : AnalyzerState) (fr : Frame) (var : String) : Finset String :=
  if fr.localsIsGlobals then (st.globalDeps.find? var).getD ∅
  else
    match ((st.frameDeps.find? fr.fid).getD Dict.empty).find? var with
    | some ds => ds
    | none =>
      match st.globalDeps.find? var with
      | some ds => ds
      | none => ∅

/-- The read rule the code actually implements, for the amended claim C5:
resolution is keyed on membership in the *runtime namespaces*
(`f_locals` / `f_globals`), not on which dependency store has an entry;
missing entries default to `∅`. -/
def amendedGet (st : AnalyzerState) (fr : Frame) (var : String) : Finset String :=
  if var ∈ fr.localNames then
    if fr.localsIsGlobals then (st.globalDeps.find? var).getD ∅
    else (((st.frameDeps.find? fr.fid).getD Dict.empty).find? var).getD ∅
  else if var ∈ fr.globalNames then (st.globalDeps.find? var).getD ∅
  else ∅

/-- A classification table with no entry for any line. -/
def emptyLineSets : LineSets :=
  { used := fun _ => ∅, assigned := fun _ => ∅, rhs := fun _ => ∅ }

/-- Concrete state for the C1 witness: the global store maps x to w. -/
def c1State : AnalyzerState :=
  { initState with globalDeps := ⟨[("x", {"w"})]⟩ }

/-- Concrete module-level frame with x bound, for the C1 witness. -/
def c1Frame : Frame :=
  { fid := 1, fLineno := 1, localNames := {"x"}, globalNames := {"x"},
    builtinNames := pyBuiltins, localsIsGlobals := true, inSourceFile := true }

/-- Concrete classification for the C4 witness: line 1 is `s = s + x`-like
(s assigned, s and x on the rhs, x read). -/
def c4Cls : LineSets :=
  { used := fun l => if l = 1 then {"x"} else ∅
    assigned := fun l => if l = 1 then {"s"} else ∅
    rhs := fun l => if l = 1 then {"s", "x"} else ∅ }

/-- Concrete state for the C4 witness: s currently depends on x. -/
def c4State : AnalyzerState :=
  { initState with globalDeps := ⟨[("s", {"x"})]⟩ }

/-- Concrete module-level frame for the C4 witness. -/
def c4Frame : Frame :=
  { fid := 1, fLineno := 1, localNames := {"s", "x"}, globalNames := {"s", "x"},
    builtinNames := pyBuiltins, localsIsGlobals := true, inSourceFile := true }

/-- Concrete state for the C5 counterexample/witness: the global store has
an entry for x, the frame-local store has none. -/
def c5State : AnalyzerState :=
  { initState with globalDeps := ⟨[("x", {"a"})]⟩ }

/-- Concrete non-module frame for C5 with x bound in `f_locals`. -/
def c5Frame : Frame :=
  { fid := 2, fLineno := 1, localNames := {"x"}, globalNames := {"x"},
    builtinNames := pyBuiltins, localsIsGlobals := false, inSourceFile := true }

/-- Concrete module-level frame with nothing bound, for C6. -/
def c6Frame : Frame :=
  { fid := 1, fLineno := 1, localNames := ∅, globalNames := ∅,
    builtinNames := pyBuiltins, localsIsGlobals := true, inSourceFile := true }

/-- Concrete module-level frame visiting line 5, for C7. -/
def c7Frame : Frame :=
  { fid := 1, fLineno := 5, localNames := ∅, globalNames := ∅,
    builtinNames := pyBuiltins, localsIsGlobals := true, inSourceFile := true }

/-! ## Helper lemmas -/

theorem mem_sortedNames (s : Finset String) (x : String) :
    x ∈ sortedNames s ↔ x ∈ s := by
  rcases s with ⟨m, hm⟩
  induction m using Quot.ind with
  | _ l =>
    show x ∈ List.insertionSort strle l ↔ _
    rw [(List.perm_insertionSort strle l).mem_iff]
    exact Iff.rfl

theorem sortedNames_empty : sortedNames ∅ = [] := rfl

theorem findEntry_insertEntry_self {κ ν : Type} [DecidableEq κ]
    (l : List (κ × ν)) (k : κ) (v : ν) :
    findEntry (insertEntry l k v) k = some v := by
  induction l with
  | nil => simp [insertEntry, findEntry]
  | cons p rest ih =>
    obtain ⟨k', v'⟩ := p
    by_cases h : k' = k
    · simp [insertEntry, findEntry, h]
    · simp [insertEntry, findEntry, h, ih]

theorem findEntry_insertEntry_ne {κ ν : Type} [DecidableEq κ]
    (l : List (κ × ν)) (k k' : κ) (v : ν) (h : k' ≠ k) :
    findEntry (insertEntry l k v) k' = findEntry l k' := by
  induction l with
  | nil => simp [insertEntry, findEntry, Ne.symm h]
  | cons p rest ih =>
    obtain ⟨k0, v0⟩ := p
    by_cases h0 : k0 = k
    · subst h0
      simp [insertEntry, findEntry, Ne.symm h]
    · simp [insertEntry, findEntry, h0, ih]

theorem dictFind_insert_self {κ ν : Type} [DecidableEq κ]
    (d : Dict κ ν) (k : κ) (v : ν) :
    (d.insert k v).find? k = some v :=
  findEntry_insertEntry_self d.entries k v

theorem find_foldlInsert_not_mem {κ ν : Type} [DecidableEq κ]
    (targets : List κ) (g : Dict κ ν) (u : ν) (k : κ) (h : k ∉ targets) :
    (targets.foldl (fun g' t => g'.insert t u) g).find? k = g.find? k := by
  induction targets generalizing g with
  | nil => rfl
  | cons t rest ih =>
    simp only [List.foldl_cons]
    rw [ih (g.insert t u) (fun hm => h (List.mem_cons_of_mem _ hm))]
    exact findEntry_insertEntry_ne g.entries t k u
      (fun he => h (he ▸ List.mem_cons_self t rest))

theorem find_foldlInsert_mem {κ ν : Type} [DecidableEq κ]
    (targets : List κ) (g : Dict κ ν) (u : ν) (k : κ) (h : k ∈ targets) :
    (targets.foldl (fun g' t => g'.insert t u) g).find? k = some u := by
  induction targets generalizing g with
  | nil => cases h
  | cons t rest ih =>
    simp only [List.foldl_cons]
    by_cases hr : k ∈ rest
    · exact ih (g.insert t u) hr
    · have ht : k = t := by
        rcases List.mem_cons.mp h with h1 | h2
        · exact h1
        · exact absurd h2 hr
      subst ht
      rw [find_foldlInsert_not_mem rest (g.insert k u) u k hr]
      exact findEntry_insertEntry_self g.entries k u

theorem foldl_union_insert (f : String → Finset String) (L : List String) :
    ∀ acc : Finset String,
      L.foldl (fun a s => (a ∪ f s) ∪ {s}) acc
        = acc ∪ (L.toFinset ∪ L.toFinset.biUnion f) := by
  induction L with
  | nil => intro acc; simp
  | cons x rest ih =>
    intro acc
    simp only [List.foldl_cons]
    rw [ih]
    ext y
    simp only [Finset.mem_union, Finset.mem_biUnion, Finset.mem_singleton,
      List.toFinset_cons, Finset.mem_insert, List.mem_toFinset]
    constructor
    · rintro (((h | h) | h) | (h | ⟨i, hi, hy⟩))
      · exact Or.inl h
      · exact Or.inr (Or.inr ⟨x, Or.inl rfl, h⟩)
      · exact Or.inr (Or.inl (Or.inl h))
      · exact Or.inr (Or.inl (Or.inr h))
      · exact Or.inr (Or.inr ⟨i, Or.inr hi, hy⟩)
    · rintro (h | ((h | h) | ⟨i, (hi | hi), hy⟩))
      · exact Or.inl (Or.inl (Or.inl h))
      · exact Or.inl (Or.inr h)
      · exact Or.inr (Or.inl h)
      · exact Or.inl (Or.inl (Or.inr (hi ▸ hy)))
      · exact Or.inr (Or.inr ⟨i, hi, hy⟩)

theorem setDeps_records (st : AnalyzerState) (fr : Frame)
    (targets rhsNames : List String) :
    (setDepsForAssignment st fr targets rhsNames).records = st.records := by
  unfold setDepsForAssignment
  split <;> rfl

theorem setDeps_lineExecCount (st : AnalyzerState) (fr : Frame)
    (targets rhsNames : List String) :
    (setDepsForAssignment st fr targets rhsNames).lineExecCount = st.lineExecCount := by
  unfold setDepsForAssignment
  split <;> rfl

theorem setDeps_entry (st : AnalyzerState) (fr : Frame)
    (targets rhsNames : List String) (tgt : String) (h : tgt ∈ targets) :
    storedEntry (setDepsForAssignment st fr targets rhsNames) fr tgt
      = some ((rhsNames.filter (fun n => ! isBuiltin n fr)).foldl
          (fun acc src => (acc ∪ getCurrentDepsFor st fr src) ∪ {src}) ∅) := by
  cases hb : fr.localsIsGlobals with
  | true =>
    simp only [setDepsForAssignment, storedEntry, hb, if_true]
    exact find_foldlInsert_mem targets st.globalDeps _ tgt h
  | false =>
    simp only [setDepsForAssignment, storedEntry, hb, Bool.false_eq_true, if_false]
    rw [dictFind_insert_self]
    simp only [Option.getD_some]
    exact find_foldlInsert_mem targets _ _ tgt h

/-! ## Claim theorems -/

/-- C1: for every invocation, assigned-name set and rhs-name set, the
propagator first removes builtin names from the rhs (`cleanRhs`), computes
the union of the current dependency set of each name in `cleanRhs`
together with `cleanRhs` itself, and stores that identical union as the
new dependency set of every name in the assigned set. -/
theorem propagator_stores_identical_union (st : AnalyzerState) (fr : Frame)
    (targets rhsNames : List String) (tgt : String) (h : tgt ∈ targets) :
    storedEntry (setDepsForAssignment st fr targets rhsNames) fr tgt
      = some ((rhsNames.filter (fun n => ! isBuiltin n fr)).toFinset
          ∪ (rhsNames.filter (fun n => ! isBuiltin n fr)).toFinset.biUnion
              (fun n => getCurrentDepsFor st fr n)) := by
  rw [setDeps_entry st fr targets rhsNames tgt h,
    foldl_union_insert (fun n => getCurrentDepsFor st fr n)
      (rhsNames.filter (fun n => ! isBuiltin n fr)) ∅]
  rw [Finset.empty_union]

/-- Witness for C1 at a concrete input: both targets of `y, z = ...` with
rhs `x, print` (x depending on w, print a builtin) receive `{x, w}`. -/
theorem propagator_stores_identical_union_witness :
    ("y" ∈ ["y", "z"])
    ∧ storedEntry (setDepsForAssignment c1State c1Frame ["y", "z"] ["x", "print"]) c1Frame "y"
        = some ((["x", "print"].filter (fun n => ! isBuiltin n c1Frame)).toFinset
            ∪ (["x", "print"].filter (fun n => ! isBuiltin n c1Frame)).toFinset.biUnion
                (fun n => getCurrentDepsFor c1State c1Frame n)) :=
  ⟨by decide,
    propagator_stores_identical_union c1State c1Frame ["y", "z"] ["x", "print"] "y"
      (by decide)⟩

/-- C2: analyzing Scenario A (`a = 1` / `b = a` / `c = b + a`) produces
exactly one dependency record, {line 3, execution 1, variable b,
dependency a}; in particular line 2 emits nothing and no record is ever
emitted for c. -/
theorem scenarioA_exact_records :
    (runTrace (collect scenarioAProg) initState scenarioAEvents).records
      = [ { line := 3, execution := 1, varName := "b", dependency := "a" } ] := by
  decide

/-- C3: analyzing Scenario B (`a = [1, 2]` / `for x in a:` / `    y = x`)
produces exactly two records, {line 3, execution 1, x, a} then
{line 3, execution 2, x, a}; the loop header emits nothing on any of its
visitations and line 3's execution counter ends at 2 after the two
iterations. -/
theorem scenarioB_exact_records :
    (runTrace (collect scenarioBProg) initState scenarioBEvents).records
      = [ { line := 3, execution := 1, varName := "x", dependency := "a" },
          { line := 3, execution := 2, varName := "x", dependency := "a" } ]
    ∧ (runTrace (collect scenarioBProg) initState scenarioBEvents).lineExecCount 3 = 2 := by
  decide

/-- C4: on a line event for a name that is both read and assigned, the
appended records are computed from the snapshot of the dependency sets
taken before the propagator updates the store for that line: the batch
appended is `emitBatch` evaluated at the pre-state, and a record for the
name appears in it exactly for the dependencies in the pre-assignment
set. -/
theorem emission_uses_preassignment_snapshot (cls : LineSets) (st : AnalyzerState)
    (fr : Frame) (v d : String) (hin : fr.inSourceFile = true)
    (hread : v ∈ cls.used fr.fLineno ∪ (cls.assigned fr.fLineno ∩ cls.rhs fr.fLineno))
    (hassign : v ∈ cls.assigned fr.fLineno) :
    (tracer cls st fr "line").records
        = st.records ++ emitBatch cls st fr (st.lineExecCount fr.fLineno + 1)
    ∧ (({ line := fr.fLineno, execution := st.lineExecCount fr.fLineno + 1,
          varName := v, dependency := d } : DependencyRecord)
          ∈ emitBatch cls st fr (st.lineExecCount fr.fLineno + 1)
        ↔ d ∈ getCurrentDepsFor st fr v) := by
  constructor
  · simp only [tracer, tracerHook, tracerStep, hin]
    by_cases ha : cls.assigned fr.fLineno = ∅ <;>
      simp [ha, setDeps_records, setDeps_lineExecCount]
  · simp only [emitBatch, List.mem_flatMap, List.mem_map]
    constructor
    · rintro ⟨v', hv', d', hd', heq⟩
      simp only [DependencyRecord.mk.injEq] at heq
      obtain ⟨-, -, hveq, hdeq⟩ := heq
      subst hveq; subst hdeq
      exact (mem_sortedNames _ _).mp hd'
    · intro hd
      refine ⟨v, ?_, d, ?_, rfl⟩
      · exact (mem_sortedNames _ _).mpr hread
      · exact (mem_sortedNames _ _).mpr hd

/-- Witness for C4 at a concrete input: line 1 is `s = s + x`-like with s
currently depending on x; the emitted record for s carries dependency x,
taken from the pre-assignment set. -/
theorem emission_uses_preassignment_snapshot_witness :
    (c4Frame.inSourceFile = true)
    ∧ ("s" ∈ c4Cls.used c4Frame.fLineno
        ∪ (c4Cls.assigned c4Frame.fLineno ∩ c4Cls.rhs c4Frame.fLineno))
    ∧ ("s" ∈ c4Cls.assigned c4Frame.fLineno)
    ∧ ((tracer c4Cls c4State c4Frame "line").records
          = c4State.records
            ++ emitBatch c4Cls c4State c4Frame (c4State.lineExecCount c4Frame.fLineno + 1)
        ∧ (({ line := c4Frame.fLineno,
              execution := c4State.lineExecCount c4Frame.fLineno + 1,
              varName := "s", dependency := "x" } : DependencyRecord)
              ∈ emitBatch c4Cls c4State c4Frame (c4State.lineExecCount c4Frame.fLineno + 1)
            ↔ "x" ∈ getCurrentDepsFor c4State c4Frame "s")) :=
  ⟨rfl, by decide, by decide,
    emission_uses_preassignment_snapshot c4Cls c4State c4Frame "s" "x" rfl
      (by decide) (by decide)⟩

/-- C5 is refuted at a concrete input: in a non-module frame where x is
bound in `f_locals`, the local dependency store has no entry for x but the
global dependency store maps x to {a}; the code returns ∅ (it resolves by
runtime-namespace membership and never falls back to the global store for
a local name), while the claimed resolution rule returns {a}. -/
theorem scope_resolution_counterexample :
    getCurrentDepsFor c5State c5Frame "x" ≠ claimedGet c5State c5Frame "x" := by
  decide

/-- C5 (amended): reads are resolved by membership in the runtime
namespaces — a name bound in `f_locals` reads the global store at module
level and the frame-local store otherwise (missing entries default to ∅,
with no fallback), a name bound only in `f_globals` reads the global
store, and an unbound name yields ∅; and a write in a non-module
invocation always goes to that invocation's frame-local store — the
global store is untouched and every assigned name receives a frame-local
entry holding the propagated union. -/
theorem scope_resolution_amended (st : AnalyzerState) (fr : Frame) (var : String)
    (targets rhsNames : List String) (tgt : String)
    (hmod : fr.localsIsGlobals = false) (htgt : tgt ∈ targets) :
    getCurrentDepsFor st fr var = amendedGet st fr var
    ∧ (setDepsForAssignment st fr targets rhsNames).globalDeps = st.globalDeps
    ∧ (((setDepsForAssignment st fr targets rhsNames).frameDeps.find? fr.fid).getD
          Dict.empty).find? tgt
        = some ((rhsNames.filter (fun n => ! isBuiltin n fr)).foldl
            (fun acc src => (acc ∪ getCurrentDepsFor st fr src) ∪ {src}) ∅) := by
  refine ⟨rfl, by simp [setDepsForAssignment, hmod], ?_⟩
  have h := setDeps_entry st fr targets rhsNames tgt htgt
  simpa [storedEntry, hmod] using h

/-- Witness for C5 (amended) at a concrete input: the non-module write for
y lands in frame 2's local store with the union {x}, while the global
store is untouched. -/
theorem scope_resolution_amended_witness :
    (c5Frame.localsIsGlobals = false)
    ∧ ("y" ∈ ["y"])
    ∧ (getCurrentDepsFor c5State c5Frame "x" = amendedGet c5State c5Frame "x"
        ∧ (setDepsForAssignment c5State c5Frame ["y"] ["x"]).globalDeps
            = c5State.globalDeps
        ∧ (((setDepsForAssignment c5State c5Frame ["y"] ["x"]).frameDeps.find?
              c5Frame.fid).getD Dict.empty).find? "y"
            = some ((["x"].filter (fun n => ! isBuiltin n c5Frame)).foldl
                (fun acc src => (acc ∪ getCurrentDepsFor c5State c5Frame src) ∪ {src}) ∅)) :=
  ⟨rfl, by decide,
    scope_resolution_amended c5State c5Frame "x" ["y"] ["x"] "y" rfl (by decide)⟩

/-- C6 is refuted at a concrete input: `print` is a builtin, yet when it
appears in the assigned set the propagator creates a dependency-set entry
for it (here mapping print to {x}) — targets are not filtered for
builtins. -/
theorem builtin_target_entry_counterexample :
    isBuiltin "print" c6Frame = true
    ∧ (setDepsForAssignment initState c6Frame ["print"] ["x"]).globalDeps.find? "print"
        = some {"x"} := by
  decide

/-- C6 (amended): builtin names are excluded as dependency sources — the
propagator behaves identically when builtins are pre-filtered from the
rhs set, so a builtin rhs name contributes neither its closure nor
itself — but targets are not filtered: every name in the assigned set,
builtin or not, receives a stored dependency-set entry. -/
theorem builtin_rhs_only_filtered (st : AnalyzerState) (fr : Frame)
    (targets rhsNames : List String) (tgt : String) (h : tgt ∈ targets) :
    setDepsForAssignment st fr targets rhsNames
      = setDepsForAssignment st fr targets
          (rhsNames.filter (fun n => ! isBuiltin n fr))
    ∧ storedEntry (setDepsForAssignment st fr targets rhsNames) fr tgt ≠ none := by
  constructor
  · have hf : (rhsNames.filter (fun n => ! isBuiltin n fr)).filter
        (fun n => ! isBuiltin n fr) = rhsNames.filter (fun n => ! isBuiltin n fr) := by
      rw [List.filter_filter]
      simp
    simp only [setDepsForAssignment, hf]
  · rw [setDeps_entry st fr targets rhsNames tgt h]
    simp

/-- Witness for C6 (amended) at a concrete input: the builtin `print` as
sole target still receives an entry. -/
theorem builtin_rhs_only_filtered_witness :
    ("print" ∈ ["print"])
    ∧ (setDepsForAssignment initState c6Frame ["print"] ["x", "len"]
          = setDepsForAssignment initState c6Frame ["print"]
              (["x", "len"].filter (fun n => ! isBuiltin n c6Frame))
        ∧ storedEntry (setDepsForAssignment initState c6Frame ["print"] ["x", "len"])
            c6Frame "print" ≠ none) :=
  ⟨by decide,
    builtin_rhs_only_filtered initState c6Frame ["print"] ["x", "len"] "print"
      (by decide)⟩

/-- C7 as stated is false at a concrete input: a "line" event for a line
with no classification entry still increments that line's execution
counter (from 0 to 1 here), so the hook does not leave every
LineExecutionCounter unchanged. -/
theorem unclassified_line_counter_increments :
    (tracer emptyLineSets initState c7Frame "line").lineExecCount 5
      ≠ initState.lineExecCount 5 := by
  decide

/-- C7 (amended): a line event of the analyzed source whose line has no
classification entry (empty used, assigned and rhs sets) emits no records
and leaves both dependency stores unchanged, but the line's own execution
counter is incremented by one; every other line's counter is unchanged. -/
theorem unclassified_line_frame_amended (cls : LineSets) (st : AnalyzerState)
    (fr : Frame) (hin : fr.inSourceFile = true)
    (hu : cls.used fr.fLineno = ∅) (ha : cls.assigned fr.fLineno = ∅)
    (hr : cls.rhs fr.fLineno = ∅) :
    (tracer cls st fr "line").records = st.records
    ∧ (tracer cls st fr "line").globalDeps = st.globalDeps
    ∧ (tracer cls st fr "line").frameDeps = st.frameDeps
    ∧ (tracer cls st fr "line").lineExecCount fr.fLineno
        = st.lineExecCount fr.fLineno + 1
    ∧ ∀ l, l ≠ fr.fLineno →
        (tracer cls st fr "line").lineExecCount l = st.lineExecCount l := by
  have hstep : tracer cls st fr "line"
      = { st with lineExecCount := fun l =>
            if l = fr.fLineno then st.lineExecCount l + 1 else st.lineExecCount l } := by
    simp [tracer, tracerHook, tracerStep, hin, ha, hu, emitBatch, sortedNames_empty]
  refine ⟨?_, ?_, ?_, ?_, ?_⟩
  · rw [hstep]
  · rw [hstep]
  · rw [hstep]
  · rw [hstep]; simp
  · intro l hl
    rw [hstep]
    simp [hl]

/-- Witness for C7 (amended) at a concrete input. -/
theorem unclassified_line_frame_amended_witness :
    (c7Frame.inSourceFile = true)
    ∧ (emptyLineSets.used c7Frame.fLineno = ∅)
    ∧ (emptyLineSets.assigned c7Frame.fLineno = ∅)
    ∧ (emptyLineSets.rhs c7Frame.fLineno = ∅)
    ∧ ((tracer emptyLineSets initState c7Frame "line").records = initState.records
        ∧ (tracer emptyLineSets initState c7Frame "line").globalDeps = initState.globalDeps
        ∧ (tracer emptyLineSets initState c7Frame "line").frameDeps = initState.frameDeps
        ∧ (tracer emptyLineSets initState c7Frame "line").lineExecCount c7Frame.fLineno
            = initState.lineExecCount c7Frame.fLineno + 1
        ∧ ∀ l, l ≠ c7Frame.fLineno →
            (tracer emptyLineSets initState c7Frame "line").lineExecCount l
              = initState.lineExecCount l) :=
  ⟨rfl, rfl, rfl, rfl,
    unclassified_line_frame_amended emptyLineSets initState c7Frame rfl rfl rfl rfl⟩

/-- C8: an internal exception raised while classifying, snapshotting or
propagating for a single line event is caught inside the hook: the state
is returned exactly unchanged (in particular that occurrence contributes
no records) and the hook returns its own tracer, so tracing of subsequent
lines continues and the analyzed program is never aborted. -/
theorem hook_swallows_internal_fault (cls : LineSets) (stage : HookStage)
    (st : AnalyzerState) (fr : Frame) (event : String) :
    tracerHook cls (some stage) st fr event = (st, true) := by
  unfold tracerHook tracerStep
  cases stage <;> by_cases hin : fr.inSourceFile = false <;>
    by_cases hev : event = "line" <;> simp [hin, hev]

/-- C9: for every source program and event trace, two runs from
independently constructed analyzer states — each exactly the fresh state
`Analyzer.__init__` builds — produce identical record lists: the analyzer
is a deterministic function of the source text with no state shared
between runs. -/
theorem independent_runs_equal_records (prog : List Stmt) (evs : List TraceEvent)
    (st1 st2 : AnalyzerState) (h1 : st1 = initState) (h2 : st2 = initState) :
    (runTrace (collect prog) st1 evs).records
      = (runTrace (collect prog) st2 evs).records := by
  rw [h1, h2]

/-- Witness for C9 at a concrete input: two independent runs over
Scenario A. -/
theorem independent_runs_equal_records_witness :
    (runTrace (collect scenarioAProg) initState scenarioAEvents).records
      = (runTrace (collect scenarioAProg) initState scenarioAEvents).records :=
  independent_runs_equal_records scenarioAProg scenarioAEvents initState initState
    rfl rfl

/-- C10: when the analyzed program raises, `Analyzer.run`'s
`return self.records` inside the `finally` block suppresses the exception
entirely: the caller receives exactly the records accumulated up to the
failure point, observes no error, the previous trace function is
restored, and the outcome is indistinguishable from a normal run over the
same event prefix. -/
theorem run_returns_partial_records_on_error (cls : LineSets) (st : AnalyzerState)
    (msg : String) (evs : List TraceEvent) :
    Analyzer.run cls st (Except.error (msg, evs))
        = { returned := (runTrace cls st evs).records
            raised := none
            traceRestored := true }
    ∧ Analyzer.run cls st (Except.error (msg, evs)) = Analyzer.run cls st (Except.ok evs) :=
  ⟨rfl, rfl⟩

end DataFlow
